import Mathlib

/-!
# Verification of the Mosaic templating core

A shallow embedding of the Mosaic UI templating engine's core:
change detection (`Memory.changed`), the commit engine for attributes,
events and keyed lists (`Memory.commitAttribute`, `Memory.commitEvent`,
`Memory.commitKeyedArray`), template acquisition (`getTemplate`) and
template compilation (`buildHTML`), with theorems settling the spec's
claims about them.

JavaScript runtime values exchanged between the view functions and the
engine are modelled by the inductive type `JSValue`; the DOM is modelled
locally per claim (an attribute map for attribute commits, an ordered
sibling list for keyed-list commits, a flat node list for the
document-global key queries, a listener multiset for event commits).

Helpers from `util.ts` (`isPrimitive`, `isBooleanAttribute`,
`getArrayDifferences`, `insertAfter`, `nodeMarker`,
`lastAttributeNameRegex`) are not part of the sources at hand; each is
modelled from the specification's words and carries a doc comment saying
so.
-/

namespace Mosaic

/-- A JavaScript runtime value, as the shapes the engine dispatches on:
primitives (`string`/`number`/`boolean`/`null`/`undefined`), functions
(carrying their rendered source text, which is what `'' + f` yields),
plain arrays, keyed arrays (`{ keys, items, __isKeyedArray: true }`),
Mosaic component instances (carrying their template id `tid` and the
JSON rendering of their injected data), nested templates (carrying their
value list) and other plain objects (carrying their JSON rendering). -/
inductive JSValue where
  | vUndefined : JSValue
  | vNull : JSValue
  | vBool (b : Bool) : JSValue
  | vNum (n : Int) : JSValue
  | vStr (s : String) : JSValue
  | vFun (src : String) : JSValue
  | vArr (elems : List JSValue) : JSValue
  | vKeyed (keys : List String) : JSValue
  | vMosaic (tid : String) (injected : String) : JSValue
  | vTemplate (values : List JSValue) : JSValue
  | vObj (json : String) : JSValue

/-- JavaScript truthiness of a value (`!v` is `!truthy v`). -/
def truthy : JSValue → Bool
  | .vUndefined => false
  | .vNull => false
  | .vBool b => b
  | .vNum n => n != 0
  | .vStr s => s != ""
  | _ => true

/-- Modelled from the spec: `isPrimitive` from `util.ts` (not among the
sources at hand).  The spec's change-detector rule 2 enumerates the
primitive shapes: "Primitive values (string/number/boolean/null/undefined)". -/
def isPrimitive : JSValue → Bool
  | .vStr _ => true
  | .vNum _ => true
  | .vBool _ => true
  | .vNull => true
  | .vUndefined => true
  | _ => false

/-- The test `typeof v === 'function'`. -/
def isFunction : JSValue → Bool
  | .vFun _ => true
  | _ => false

/-- The test `Array.isArray(v)`: true exactly for plain arrays (a keyed array is a
plain object `{ keys, items, __isKeyedArray: true }`, not an array). -/
def isArray : JSValue → Bool
  | .vArr _ => true
  | _ => false

/-- Modelled from the spec: `isKeyedArray` from `util.ts` recognizes the
keyed-list shape (the `__isKeyedArray` tag). -/
def isKeyedArray : JSValue → Bool
  | .vKeyed _ => true
  | _ => false

/-- The test `typeof v === 'object'` for the values that reach the object branch of
`changed` (`null` is routed to the primitive branch by `isPrimitive`). -/
def isObjectType : JSValue → Bool
  | .vArr _ => true
  | .vKeyed _ => true
  | .vMosaic _ _ => true
  | .vTemplate _ => true
  | .vObj _ => true
  | .vNull => true
  | _ => false

/-- JavaScript strict equality `===`, restricted to the cases the engine
exercises: value equality on primitives of the same type; two values of
different primitive types are unequal; non-primitive values are compared
by reference, and distinct heap objects — the only way a non-primitive
reaches a fresh comparison here — are unequal. -/
def strictEq : JSValue → JSValue → Bool
  | .vUndefined, .vUndefined => true
  | .vNull, .vNull => true
  | .vBool a, .vBool b => a == b
  | .vNum a, .vNum b => a == b
  | .vStr a, .vStr b => a == b
  | _, _ => false

mutual
/-- String coercion `'' + v`.  A function renders to its source text; an
array joins its elements with commas; objects render to the generic
object tag. -/
def jsToString : JSValue → String
  | .vUndefined => "undefined"
  | .vNull => "null"
  | .vBool b => if b then "true" else "false"
  | .vNum n => toString n
  | .vStr s => s
  | .vFun src => src
  | .vArr elems => jsToStringList elems
  | .vKeyed _ => "[object Object]"
  | .vMosaic _ _ => "[object Object]"
  | .vTemplate _ => "[object Object]"
  | .vObj _ => "[object Object]"

/-- String coercion of an array: elements joined with commas. -/
def jsToStringList : List JSValue → String
  | [] => ""
  | [x] => jsToString x
  | x :: y :: rest => jsToString x ++ "," ++ jsToStringList (y :: rest)
end

/-- The coercion `JSON.stringify(v)`, coarsely: a plain object renders to the JSON text
it carries, primitives to their JSON forms. -/
def jsonStringify : JSValue → String
  | .vObj json => json
  | .vStr s => "\"" ++ s ++ "\""
  | .vNum n => toString n
  | .vBool b => if b then "true" else "false"
  | .vNull => "null"
  | .vUndefined => "undefined"
  | .vFun _ => "undefined"
  | .vArr _ => "[]"
  | .vKeyed _ => "{}"
  | .vMosaic _ injected => injected
  | .vTemplate _ => "{}"

/-- The boolean result of `Memory.changed(oldValue, newValue,
initiallyRendered)` from `memory.ts`: per-slot change detection.  The
branch structure follows the source exactly:

1. `if(!oldValue || initiallyRendered === true) return true;`
2. primitives: `return oldValue !== newValue;`
3. functions: `return ('' + oldValue) === ('' + newValue);`
4. arrays: `return true;`
5. keyed arrays: `return true;`
6. objects: the Mosaic branch (same `tid` and equal injected JSON means
   unchanged), the Template branch (compare stringified value lists),
   and the `JSON.stringify` fallback.
(The source's side effects — `cleanUpMosaic`, lifecycle traversal, the
`iid` transfer — do not affect the returned boolean and are omitted.) -/
def changed (oldValue newValue : JSValue) (initiallyRendered : Bool) : Bool :=
  if !truthy oldValue || initiallyRendered then true
  else if isPrimitive newValue then !(strictEq oldValue newValue)
  else if isFunction newValue then jsToString oldValue == jsToString newValue
  else if isArray newValue then true
  else if isKeyedArray newValue then true
  else if isObjectType newValue then
    match oldValue with
    | .vMosaic otid oinjected =>
      match newValue with
      | .vMosaic ntid ninjected =>
        if ntid != otid then true
        else oinjected != ninjected
      | _ => true
    | _ =>
      match newValue with
      | .vTemplate nvalues =>
        match oldValue with
        | .vTemplate ovalues => jsToStringList ovalues != jsToStringList nvalues
        | _ => true
      | _ => jsonStringify oldValue != jsonStringify newValue
  else false

/-! ## The attribute commit (`Memory.commitAttribute`)

An element's attribute state is modelled as an association list kept
duplicate-free by construction of `setAttribute`/`removeAttribute`. -/

/-- Modelled from the spec: `isBooleanAttribute` from `util.ts` (not among
the sources at hand) recognizes the standard boolean-valued HTML
attributes. -/
def isBooleanAttribute (name : String) : Bool :=
  ["allowfullscreen", "async", "autofocus", "autoplay", "checked",
   "controls", "default", "defer", "disabled", "formnovalidate", "hidden",
   "ismap", "itemscope", "loop", "multiple", "muted", "nomodule",
   "novalidate", "open", "readonly", "required", "reversed",
   "selected"].contains name

/-- An element, reduced to the state the attribute commit touches: its
attribute map. -/
structure DomElement where
  attrs : List (String × String)
deriving Repr, DecidableEq

/-- The DOM operation `Element.removeAttribute`. -/
def DomElement.removeAttribute (el : DomElement) (name : String) : DomElement :=
  ⟨el.attrs.filter (fun a => a.1 != name)⟩

/-- The DOM operation `Element.setAttribute` (the value argument arrives already coerced to
a string). -/
def DomElement.setAttribute (el : DomElement) (name value : String) : DomElement :=
  ⟨(name, value) :: (el.removeAttribute name).attrs⟩

/-- The DOM operation `Element.getAttribute`. -/
def DomElement.getAttribute (el : DomElement) (name : String) : Option String :=
  (el.attrs.find? (fun a => a.1 == name)).map (·.2)

/-- The DOM operation `Element.hasAttribute`. -/
def DomElement.hasAttribute (el : DomElement) (name : String) : Bool :=
  el.attrs.any (fun a => a.1 == name)

/-- The commit `Memory.commitAttribute` from `memory.ts`, acting on the addressed
element.  `attrName` is `this.attribute?.name`; the source returns
immediately when `this.attribute` is absent.  For a recognized
boolean-valued attribute name the attribute is toggled
(`newValue === true` sets it to the marker string `'true'`, anything else
removes it); otherwise `setAttribute(name, newValue)` assigns the new
value's string form. -/
def commitAttribute (attrName : Option String) (el : DomElement)
    (newValue : JSValue) : DomElement :=
  match attrName with
  | none => el
  | some name =>
    if isBooleanAttribute name then
      match newValue with
      | .vBool true => el.setAttribute name "true"
      | _ => el.removeAttribute name
    else
      el.setAttribute name (jsToString newValue)

/-! ## The event commit (`Memory.commitEvent`)

A node's listener state: the list of `(eventType, handler)` pairs
registered through `addEventListener` (handlers are identified by a
token standing for the function object created by `value.bind(component)`
— each commit creates a fresh bound function), the node's
`eventHandlers` record, and its attribute map. -/

/-- The state of a node as the event commit sees it. -/
structure EventNode where
  listeners : List (String × Nat)
  eventHandlers : List (String × Nat)
  attrs : List (String × String)
deriving Repr, DecidableEq

/-- The DOM operation `addEventListener(type, handler)`: registering an identical
`(type, handler)` pair twice is a no-op (DOM semantics). -/
def addEventListener (node : List (String × Nat)) (ev : String) (h : Nat) :
    List (String × Nat) :=
  if (ev, h) ∈ node then node else node ++ [(ev, h)]

/-- The DOM operation `removeEventListener(type, handler)`: removes the registered
`(type, handler)` pair when present, otherwise does nothing. -/
def removeEventListener (node : List (String × Nat)) (ev : String) (h : Nat) :
    List (String × Nat) :=
  node.erase (ev, h)

/-- The commit `Memory.commitEvent` from `memory.ts` for the event attribute `name`
(an `on…` name; `name.substring(2)` is the DOM event type).  `handler`
stands for the fresh bound function `value.bind(component)`.  Steps, as
in the source: read `eventHandlers`; if a handler is stored under `name`,
remove it as a listener; store the new bound handler under `name`; add it
as a listener; finally remove the placeholder attribute `name`. -/
def commitEvent (name : String) (handler : Nat) (node : EventNode) : EventNode :=
  let ev := name.drop 2
  let ls :=
    match node.eventHandlers.find? (fun p => p.1 == name) with
    | some p => removeEventListener node.listeners ev p.2
    | none => node.listeners
  let handlers := (name, handler) :: node.eventHandlers.filter (fun p => p.1 != name)
  let ls := addEventListener ls ev handler
  ⟨ls, handlers, node.attrs.filter (fun a => a.1 != name)⟩

/-! ## The keyed reconciler (`Memory.commitKeyedArray`)

### The key diff

`getArrayDifferences` lives in `util.ts`, which is not among the sources
at hand; it is modelled from the spec below. -/

/-- An addition record `{ key, index }`. -/
structure Addition where
  key : String
  index : Nat
deriving Repr, DecidableEq

/-- Modelled from the spec: `getArrayDifferences` from `util.ts`.
"compute `deletions = old keys absent from new keys` and
`additions = {key, index} pairs present in new keys but absent from old
keys` (a symmetric key-set difference, not a positional diff)", with
`index` the key's position in the new key list. -/
def getArrayDifferences (oldKeys newKeys : List String) :
    List String × List Addition :=
  (oldKeys.filter (fun k => !newKeys.contains k),
   (newKeys.enum.filter (fun p => !oldKeys.contains p.2)).map
     (fun p => ⟨p.2, p.1⟩))

/-! ### Deletions: document-global key lookup

The deletion loop queries `document.querySelector` with an attribute
selector for the deleted key — a query over the whole document — and removes the result when one exists.
The document is modelled as the flat list of its elements in document
order; each carries its `key` attribute (when set) and, as inert payload,
the identity of the keyed list it was rendered by, so that claims can
speak about which list a removed node belonged to. -/

/-- An element of the document, as the deletion loop sees it: its `key`
attribute and (payload only) the keyed list that rendered it. -/
structure DocNode where
  key : Option String
  listId : Nat
deriving Repr, DecidableEq

/-- The query `document.querySelector` for a key attribute value `k`: the index of the first element
in document order whose `key` attribute equals `k`, if any. -/
def querySelectorByKey (doc : List DocNode) (k : String) : Option Nat :=
  doc.findIdx? (fun n => n.key == some k)

/-- One iteration of the deletion loop of `Memory.commitKeyedArray`:
look up the first document node carrying the key, remove it when found. -/
def commitDeletion (doc : List DocNode) (k : String) : List DocNode :=
  match querySelectorByKey doc k with
  | some i => doc.eraseIdx i
  | none => doc

/-- The whole deletion pass: `deletions.forEach(key => ...)`. -/
def commitDeletions (doc : List DocNode) (deletions : List String) :
    List DocNode :=
  deletions.foldl commitDeletion doc

/-! ### Additions: sibling walk and insertion

For one addition `{ key, index }` the source starts at the anchor node
(`child`, the node the memory's steps address — the first node of the
rendered list) and hops `index` times to the next sibling, tolerating
falling off the end (`siblings === null ? null : siblings.nextSibling`);
if a node was reached it inserts the new item's root after that node's
previous sibling; if the walk ran out (`siblings` is `null`) the guard
`if(siblings)` skips the insertion entirely.

The parent's child list is modelled as an ordered list; a node is its
position in that list. -/

/-- The DOM accessor `node.nextSibling` as a position in the parent's child list. -/
def nextSibling (len pos : Nat) : Option Nat :=
  if pos + 1 < len then some (pos + 1) else none

/-- The sibling walk
`let siblings = child; for(let i = 0; i < index; i++) siblings = siblings === null ? null : siblings.nextSibling;`. -/
def walkSiblings (len : Nat) : Option Nat → Nat → Option Nat
  | p, 0 => p
  | none, _ + 1 => none
  | some p, n + 1 => walkSiblings len (nextSibling len p) n

/-- Modelled from the spec: `insertAfter` from `util.ts` (not among the
sources at hand) inserts a new node immediately after the reference node
among its siblings. -/
def insertAfter (children : List α) (refPos : Nat) (item : α) : List α :=
  children.take (refPos + 1) ++ [item] ++ children.drop (refPos + 1)

/-- One iteration of the addition loop of `Memory.commitKeyedArray`, on
the parent's child list `children`: `anchor` is the position of the
anchor node (`child`), `index` the addition's index.  Both branches of
the source's `index >= oldMapped.length` test perform the same guarded
call `if(siblings) insertAfter(newMappedItem.element, siblings.previousSibling)`,
so the embedding needs no `oldMapped.length` argument.  When the walk
reached a node at position `q`, `siblings.previousSibling` is the node at
`q - 1` and the new item lands at position `q`; when the walk ran out,
nothing is inserted.  (`q = 0` would make `previousSibling` null and hand
`insertAfter` a null reference; it can only arise for `index = 0` with
the anchor first, and no claim exercises it — the embedding keeps the
child list unchanged there.) -/
def commitKeyedAddition (children : List α) (anchor index : Nat) (item : α) :
    List α :=
  match walkSiblings children.length (some anchor) index with
  | none => children
  | some 0 => children
  | some (q + 1) => insertAfter children q item

/-! ## Template compilation (`buildHTML`) and acquisition (`getTemplate`)

`buildHTML` walks the literal segments of the tagged template; for each
segment it asks `lastAttributeNameRegex` whether the segment ends inside
an open attribute value and appends the node marker accordingly.  The
regex and the marker constant live in `util.ts`, which is not among the
sources at hand; both are modelled from the spec. -/

/-- Modelled from the spec: the node-marker sentinel token from `util.ts`
(a comment-like token inserted at every dynamic position). -/
def nodeMarker : String := "<!--mosaic-marker-->"

/-- The single-quote character. -/
def singleQuoteChar : Char := Char.ofNat 39

/-- HTML whitespace. -/
def isWSChar (c : Char) : Bool :=
  c == ' ' || c == '\t' || c == '\n' || c == '\r'

/-- A character allowed in an unquoted attribute value. -/
def isBareValueChar (c : Char) : Bool :=
  !isWSChar c && c != '"' && c != singleQuoteChar && c != Char.ofNat 96 &&
    c != '<' && c != '>' && c != '='

/-- A character allowed in an attribute name. -/
def isNameChar (c : Char) : Bool :=
  !isWSChar c && c != '"' && c != singleQuoteChar && c != '>' && c != '=' &&
    c != '/' && c != '<'

/-- Helper for `lastAttributeMatch`: once the (possibly quoted) partial
attribute value has been consumed from the reversed character list,
expect — still reading backwards — optional whitespace, `=`, optional
whitespace, a nonempty attribute name, and a whitespace character before
the name.  Returns the remaining reversed characters before the match,
the whitespace character, the reversed name, and the forward text of the
matched `WS* = WS*` stretch between name and value. -/
def matchEqNamePart (rest : List Char) :
    Option (List Char × Char × List Char × String) :=
  let s1 := rest.span isWSChar
  match s1.2 with
  | '=' :: r2 =>
    let s2 := r2.span isWSChar
    let s3 := s2.2.span isNameChar
    if s3.1.isEmpty then none
    else
      match s3.2 with
      | c :: before =>
        if isWSChar c then
          some (before, c, s3.1,
            String.mk s2.1.reverse ++ "=" ++ String.mk s1.1.reverse)
        else none
      | [] => none
  | _ => none

/-- Modelled from the spec: `lastAttributeNameRegex` from `util.ts` (not
among the sources at hand).  Decides, purely lexically, whether a literal
segment ends inside an open attribute value — "scanning backward from the
point for an unterminated `name=` / `name=\"` pattern" — and on success
splits the segment into the text before the match and the three captured
parts the source reassembles (`attributeMatch[1]`, `[2]`, `[3]`): the
whitespace before the name, the name, and the `=`-operator together with
the opening quote and partial value.  Alternatives for the value part
mirror the regex: an unquoted value, a `"`-quoted prefix, or a
`'`-quoted prefix. -/
def lastAttributeMatch (s : String) :
    Option (String × String × String × String) :=
  let rev := s.data.reverse
  let finish := fun (vText : String) (r : List Char × Char × List Char × String) =>
    (String.mk r.1.reverse, String.mk [r.2.1], String.mk r.2.2.1.reverse,
      r.2.2.2 ++ vText)
  let tryBare :=
    let sp := rev.span isBareValueChar
    (matchEqNamePart sp.2).map
      (finish (String.mk sp.1.reverse))
  let tryQuoted := fun (qc : Char) =>
    let sp := rev.span (fun c => c != qc)
    match sp.2 with
    | _ :: r2 =>
      (matchEqNamePart r2).map
        (finish (String.mk [qc] ++ String.mk sp.1.reverse))
    | [] => none
  (tryBare.orElse fun _ => (tryQuoted '"').orElse fun _ => tryQuoted singleQuoteChar)

/-- The compiler `buildHTML(strings)` from the parser module: turns the literal
segments of a tagged template literal into one markup string.  For every
segment but the last, if the segment does not end inside an open
attribute value the node marker is appended after it; otherwise the
segment is reassembled from the match's pieces with the marker appended
as the attribute's value.  The final segment is appended unmodified.
(A tagged template literal always supplies at least one segment; the
empty list compiles to the empty string.) -/
def buildHTML (strings : List String) : String :=
  match strings.getLast? with
  | none => ""
  | some lastStr =>
    (strings.dropLast.foldl
      (fun html str =>
        match lastAttributeMatch str with
        | none => html ++ str ++ nodeMarker
        | some (before, g1, g2, g3) =>
          html ++ before ++ g1 ++ g2 ++ g3 ++ nodeMarker) "")
    ++ lastStr

/-- The slot-discovery pass `memorize` parses the compiled markup and
walks the resulting tree, emitting one memory per discovered dynamic
position.  The claims below depend only on *whether and when* discovery
runs and on its determinism in the markup, never on the contents of the
emitted memories, so the walk over the parsed tree is abstracted to its
observable here: one emitted entry per marker occurrence in the markup. -/
def memorize (markup : String) : List Unit :=
  List.replicate ((markup.splitOn nodeMarker).length - 1) ()

/-- A compiled template element: its `id` attribute, its `innerHTML`
markup, and its `memories` expando property (absent on a template that
never went through compilation/discovery). -/
structure CompiledTemplate where
  id : Option String
  markup : String
  memories : Option (List Unit)
deriving Repr, DecidableEq

/-- The slice of a component `getTemplate` reads: its template id `tid`
and its view function, modelled — when present — by the literal segments
(`strings`) the view returns for the component. -/
structure MosaicComponent where
  tid : String
  view : Option (List String)

/-- Template acquisition `getTemplate(component)` from the parser module, with the document's
id-indexed element table passed explicitly.  Returns the template, the
document table after the call, and whether this call invoked the view and
ran the compile-and-discover pass.  Branches as in the source:
`document.getElementById(component.tid)` hit returns the found template;
on a miss, a component without a view gets a fresh empty template; else
the view is invoked, the markup built, the memories computed.  The
source never inserts the created template element into the document, so
the document table is returned unchanged on every branch. -/
def getTemplate (doc : List (String × CompiledTemplate))
    (c : MosaicComponent) :
    CompiledTemplate × List (String × CompiledTemplate) × Bool :=
  match (doc.find? (fun p => p.1 == c.tid)).map (·.2) with
  | some t => (t, doc, false)
  | none =>
    match c.view with
    | none => (⟨none, "", none⟩, doc, false)
    | some strings =>
      let markup := buildHTML strings
      (⟨some c.tid, markup, some (memorize markup)⟩, doc, true)

/-! ## Claims about the change detector -/

/-- Claim C1.  The claim states that, for function-valued slots with a
truthy prior value and the force flag unset, the detector reports the
slot unchanged exactly when the two functions render to equal source
text, and dirty when the texts differ.  The source's function branch
returns `('' + oldValue) === ('' + newValue)` as the *changed* result —
the comparison is inverted relative to the claim, the spec's §4.4 rule 3,
and the method's own doc comment ("Checks if the old value is different
to the new value"): two functions with differing source are reported
unchanged, and two with identical source are reported dirty. -/
theorem changed_function_comparison_inverted :
    changed (.vFun "function a() { return 1 }")
      (.vFun "function b() { return 2 }") false = false ∧
    changed (.vFun "() => count + 1") (.vFun "() => count + 1") false = true :=
  ⟨rfl, rfl⟩

/-- Claim C4.  For primitive old/new pairs with a truthy prior value and
the force flag unset, `changed` reports dirty exactly when the values are
not strictly equal; in particular `changed 5 5 false = false` and
`changed 5 6 false = true`; and `changed x y true = true` for all values
whatsoever. -/
theorem changed_primitive_dirty_iff_not_equal
    (oldValue newValue : JSValue)
    (_hop : isPrimitive oldValue = true) (hnp : isPrimitive newValue = true)
    (ht : truthy oldValue = true) :
    changed oldValue newValue false = !(strictEq oldValue newValue) ∧
    changed (.vNum 5) (.vNum 5) false = false ∧
    changed (.vNum 5) (.vNum 6) false = true ∧
    ∀ x y : JSValue, changed x y true = true := by
  refine ⟨?_, rfl, rfl, ?_⟩
  · unfold changed
    rw [ht, hnp]
    simp
  · intro x y
    unfold changed
    simp

/-- Witness for C4: the hypotheses of
`changed_primitive_dirty_iff_not_equal` hold at the concrete primitive
pair `(5, 6)`, and the theorem instantiates there. -/
theorem changed_primitive_dirty_iff_not_equal_witness :
    changed (.vNum 5) (.vNum 6) false = !(strictEq (.vNum 5) (.vNum 6)) ∧
    changed (.vNum 5) (.vNum 5) false = false ∧
    changed (.vNum 5) (.vNum 6) false = true ∧
    changed (.vObj "{}") (.vKeyed []) true = true :=
  ⟨(changed_primitive_dirty_iff_not_equal (.vNum 5) (.vNum 6) rfl rfl rfl).1,
   (changed_primitive_dirty_iff_not_equal (.vNum 5) (.vNum 6) rfl rfl rfl).2.1,
   (changed_primitive_dirty_iff_not_equal (.vNum 5) (.vNum 6) rfl rfl rfl).2.2.1,
   (changed_primitive_dirty_iff_not_equal (.vNum 5) (.vNum 6) rfl rfl rfl).2.2.2
     (.vObj "{}") (.vKeyed [])⟩

/-! ## Claims about template compilation and acquisition -/

/-- Claim C6.  Template compilation is a pure function of the literal
segments: two calls on an identical segments sequence yield identical
markup strings.  The embedding is stateless — in particular the
attribute-position classifier `lastAttributeMatch` carries no mutable
matching state — so the markup is determined by the segments alone. -/
theorem buildHTML_pure (s1 s2 : List String) (h : s1 = s2) :
    buildHTML s1 = buildHTML s2 := by rw [h]

/-- Witness for C6: two runs of `buildHTML` on the same concrete
segments sequence agree, and on that sequence the compiled markup places
the marker inside the open attribute value. -/
theorem buildHTML_pure_witness :
    buildHTML ["<div style=\"", "\">"] = buildHTML ["<div style=\"", "\">"] ∧
    buildHTML ["<div style=\"", "\">"] = "<div style=\"" ++ nodeMarker ++ "\">" :=
  ⟨buildHTML_pure ["<div style=\"", "\">"] ["<div style=\"", "\">"] rfl, rfl⟩

/-- Claim C3.  The claim states that template acquisition is idempotent:
the view is invoked and the compile-and-discover pass runs at most once
per component type id, later calls returning the cached entry.  The
source looks the template up with `document.getElementById(component.tid)`
but never inserts the freshly created template element into the document,
so the lookup misses on every call and the view is re-invoked and the
template recompiled each time: here, for a concrete component whose id is
absent from the document, the first call runs the compile-and-discover
pass, leaves the document unchanged, and the second call runs the pass
again. -/
theorem getTemplate_not_idempotent_recompiles :
    (getTemplate [] ⟨"t0", some ["<p>", "</p>"]⟩).2.2 = true ∧
    (getTemplate [] ⟨"t0", some ["<p>", "</p>"]⟩).2.1 = [] ∧
    (getTemplate (getTemplate [] ⟨"t0", some ["<p>", "</p>"]⟩).2.1
      ⟨"t0", some ["<p>", "</p>"]⟩).2.2 = true :=
  ⟨rfl, rfl, rfl⟩

/-- Claim C8.  When the component has no view function, template
acquisition returns a fresh empty template — empty markup, no memories
expando — without failing, and leaves the document untouched. -/
theorem getTemplate_no_view_empty (doc : List (String × CompiledTemplate))
    (c : MosaicComponent) (hv : c.view = none)
    (hmiss : doc.find? (fun p => p.1 == c.tid) = none) :
    getTemplate doc c = (⟨none, "", none⟩, doc, false) := by
  simp [getTemplate, hmiss, hv]

/-- Witness for C8: a component without a view, against the empty
document. -/
theorem getTemplate_no_view_empty_witness :
    getTemplate [] ⟨"t1", none⟩ = (⟨none, "", none⟩, [], false) :=
  getTemplate_no_view_empty [] ⟨"t1", none⟩ rfl rfl

/-! ## Claims about the keyed reconciler -/

/-- Claim C2.  The claim states that inserting a keyed item at
`index = current list length` does not throw even when the sibling walk
from the anchor runs out, and places the item after the last existing
item.  The embedding is total, so no run throws; and when a sibling
exists beyond the list the item is indeed placed right after the last
list item (second conjunct).  But when the list's last item is the final
child of its parent the walk yields null and the source's `if(siblings)`
guard skips the insertion altogether — the first conjunct evaluates the
code there: with children `[item0, item1]`, anchor position `0` and
addition index `2`, the child list is returned unchanged and the new item
is never placed. -/
theorem commitKeyedAddition_append_at_document_end_drops_item :
    commitKeyedAddition ["item0", "item1"] 0 2 "new" = ["item0", "item1"] ∧
    commitKeyedAddition ["item0", "item1", "sibling"] 0 2 "new" =
      ["item0", "item1", "new", "sibling"] :=
  ⟨rfl, rfl⟩

/-- Claim C5.  The keyed diff is a symmetric key-set difference:
a key is a deletion exactly when it occurs among the old keys but not the
new ones; an addition record pairs a new key absent from the old keys
with its position in the new key list; and on old keys `[a, b, c]`
against new keys `[a, c, d]` the diff is deletions `[b]` and additions
`[(d, 2)]`. -/
theorem getArrayDifferences_symmetric_diff :
    (∀ (oldKeys newKeys : List String) (k : String),
      k ∈ (getArrayDifferences oldKeys newKeys).1 ↔
        k ∈ oldKeys ∧ k ∉ newKeys) ∧
    (∀ (oldKeys newKeys : List String) (a : Addition),
      a ∈ (getArrayDifferences oldKeys newKeys).2 ↔
        newKeys.get? a.index = some a.key ∧ a.key ∉ oldKeys) ∧
    getArrayDifferences ["a", "b", "c"] ["a", "c", "d"] =
      (["b"], [⟨"d", 2⟩]) := by
  refine ⟨?_, ?_, by decide⟩
  · intro oldKeys newKeys k
    simp [getArrayDifferences, List.mem_filter, List.elem_iff]
  · intro oldKeys newKeys a
    obtain ⟨k, i⟩ := a
    simp only [getArrayDifferences, List.mem_map, List.mem_filter]
    constructor
    · rintro ⟨⟨j, k'⟩, ⟨hmem, hnot⟩, heq⟩
      obtain ⟨hk, hj⟩ := Addition.mk.injEq .. ▸ heq
      subst hk; subst hj
      refine ⟨List.mk_mem_enum_iff_get?.mp hmem, ?_⟩
      simpa [List.elem_iff] using hnot
    · rintro ⟨hget, hnot⟩
      refine ⟨(i, k), ⟨List.mk_mem_enum_iff_get?.mpr hget, ?_⟩, rfl⟩
      simpa [List.elem_iff] using hnot

/-! ## Claims about the attribute commit -/

/-- Removing an attribute leaves the element without it. -/
theorem DomElement.hasAttribute_removeAttribute (el : DomElement)
    (name : String) : (el.removeAttribute name).hasAttribute name = false := by
  simp only [DomElement.removeAttribute, DomElement.hasAttribute,
    List.any_eq_false, List.mem_filter, bne_iff_ne, ne_eq, beq_iff_eq]
  rintro a ⟨_, hne⟩ he
  exact hne he

/-- Setting an attribute makes it present with the given value. -/
theorem DomElement.getAttribute_setAttribute (el : DomElement)
    (name value : String) :
    (el.setAttribute name value).getAttribute name = some value := by
  simp [DomElement.setAttribute, DomElement.getAttribute, List.find?_cons]

/-- Claim C7.  For an attribute-kind slot whose name is a recognized
boolean attribute, committing `true` leaves the attribute present and
committing any other value leaves it absent, whatever the prior state of
the element; for a non-boolean name the attribute is assigned the new
value's string form. -/
theorem commitAttribute_boolean_toggle (name : String) (el : DomElement)
    (v : JSValue) :
    (isBooleanAttribute name = true → v = .vBool true →
      (commitAttribute (some name) el v).hasAttribute name = true) ∧
    (isBooleanAttribute name = true → v ≠ .vBool true →
      (commitAttribute (some name) el v).hasAttribute name = false) ∧
    (isBooleanAttribute name = false →
      (commitAttribute (some name) el v).getAttribute name =
        some (jsToString v)) := by
  refine ⟨?_, ?_, ?_⟩
  · intro hb hv
    subst hv
    simp [commitAttribute, hb, DomElement.setAttribute,
      DomElement.hasAttribute]
  · intro hb hv
    have h1 : commitAttribute (some name) el v = el.removeAttribute name := by
      simp only [commitAttribute, hb, if_true]
    rw [h1]
    exact DomElement.hasAttribute_removeAttribute el name
  · intro hb
    simp [commitAttribute, hb, DomElement.getAttribute_setAttribute]

/-- Witness for C7: toggling `checked` on and off on elements with prior
state, and string-assigning `title` on a non-boolean name. -/
theorem commitAttribute_boolean_toggle_witness :
    (commitAttribute (some "checked") ⟨[]⟩ (.vBool true)).hasAttribute
      "checked" = true ∧
    (commitAttribute (some "checked") ⟨[("checked", "true")]⟩
      (.vBool false)).hasAttribute "checked" = false ∧
    (commitAttribute (some "title") ⟨[]⟩ (.vStr "hi")).getAttribute
      "title" = some (jsToString (.vStr "hi")) :=
  ⟨(commitAttribute_boolean_toggle "checked" ⟨[]⟩ (.vBool true)).1 rfl rfl,
   (commitAttribute_boolean_toggle "checked" ⟨[("checked", "true")]⟩
      (.vBool false)).2.1 rfl (by simp),
   (commitAttribute_boolean_toggle "title" ⟨[]⟩ (.vStr "hi")).2.2 rfl⟩

/-! ## Claims about deletions in the keyed reconciler -/

/-- In a list whose prefix has no match, the first match index is the
length of the prefix. -/
theorem findIdxFirstMatch {α : Type} (p : α → Bool) (pre post : List α)
    (n : α) (hn : p n = true) (hpre : ∀ m ∈ pre, p m = false) :
    List.findIdx? p (pre ++ n :: post) = some pre.length := by
  induction pre with
  | nil => simp [List.findIdx?_cons, hn]
  | cons a t ih =>
    have ha : p a = false := hpre a (by simp)
    have ht : ∀ m ∈ t, p m = false := fun m hm => hpre m (by simp [hm])
    simp [List.findIdx?_cons, ha, List.findIdx?_succ, ih ht]

/-- Erasing at the index right after a prefix removes the head of the
suffix. -/
theorem eraseIdxAppendLength {α : Type} (pre post : List α) (n : α) :
    (pre ++ n :: post).eraseIdx pre.length = pre ++ post := by
  induction pre with
  | nil => rfl
  | cons a t ih => simpa [List.eraseIdx] using ih

/-- When no element matches, the first match index does not exist. -/
theorem findIdxNoMatch {α : Type} (p : α → Bool) (l : List α)
    (h : ∀ m ∈ l, p m = false) : List.findIdx? p l = none := by
  induction l with
  | nil => simp
  | cons a t ih =>
    have ha : p a = false := h a (by simp)
    have ht : ∀ m ∈ t, p m = false := fun m hm => h m (by simp [hm])
    simp [List.findIdx?_cons, ha, List.findIdx?_succ, ih ht]

/-- Claim C9.  For each deleted key the engine removes the first element
anywhere in the whole document whose key attribute equals that key —
nothing when no element carries it — so the removal is a document-global
query, not one scoped to the list being reconciled: first conjunct, no
carrier means no change; second conjunct, the first carrier in document
order is removed wherever it sits; third conjunct, in a concrete document
whose first `x`-keyed node was rendered by list `2`, the deletion of `x`
issued while reconciling list `1` removes list `2`'s node and leaves list
`1`'s own node in place. -/
theorem commitDeletion_document_global_first_match :
    (∀ (doc : List DocNode) (k : String),
      (∀ m ∈ doc, m.key ≠ some k) → commitDeletion doc k = doc) ∧
    (∀ (pre post : List DocNode) (n : DocNode) (k : String),
      n.key = some k → (∀ m ∈ pre, m.key ≠ some k) →
      commitDeletion (pre ++ n :: post) k = pre ++ post) ∧
    commitDeletions [⟨some "x", 2⟩, ⟨some "x", 1⟩] ["x"] =
      [⟨some "x", 1⟩] := by
  refine ⟨?_, ?_, by decide⟩
  · intro doc k hnone
    have h : querySelectorByKey doc k = none := by
      apply findIdxNoMatch
      intro m hm
      simpa using hnone m hm
    simp [commitDeletion, h]
  · intro pre post n k hn hpre
    have h : querySelectorByKey (pre ++ n :: post) k = some pre.length := by
      apply findIdxFirstMatch
      · simpa using hn
      · intro m hm
        simpa using hpre m hm
    simp [commitDeletion, h, eraseIdxAppendLength]

/-- Witness for C9: the no-carrier case on a concrete document, the
first-carrier case on a concrete split, both by instantiating the
theorem. -/
theorem commitDeletion_document_global_first_match_witness :
    commitDeletion [⟨some "y", 1⟩] "x" = [⟨some "y", 1⟩] ∧
    commitDeletion ([⟨none, 1⟩] ++ ⟨some "x", 2⟩ :: [⟨some "x", 1⟩]) "x" =
      [⟨none, 1⟩] ++ [⟨some "x", 1⟩] :=
  ⟨commitDeletion_document_global_first_match.1 [⟨some "y", 1⟩] "x"
      (by decide),
   commitDeletion_document_global_first_match.2.1 [⟨none, 1⟩]
      [⟨some "x", 1⟩] ⟨some "x", 2⟩ "x" rfl (by decide)⟩

/-! ## Claims about the event commit -/

/-- The number of listeners a node carries for the DOM event type `ev`. -/
def listenerCount (node : EventNode) (ev : String) : Nat :=
  (node.listeners.filter (fun p => p.1 == ev)).length

/-- The event-commit invariant for the attribute name `name`: the
listener registrations are duplicate-free, and every listener bound for
`name`'s event type is the handler currently stored in the node's
`eventHandlers` record under `name`. -/
def eventInv (name : String) (node : EventNode) : Prop :=
  node.listeners.Nodup ∧
  ∀ h : Nat, (name.drop 2, h) ∈ node.listeners →
    (node.eventHandlers.find? (fun p => p.1 == name)).map (·.2) = some h

/-- The state reached by one event commit, spelled out. -/
theorem commitEvent_eq (name : String) (h : Nat) (node : EventNode) :
    commitEvent name h node =
      ⟨addEventListener
          (match node.eventHandlers.find? (fun p => p.1 == name) with
           | some p => removeEventListener node.listeners (name.drop 2) p.2
           | none => node.listeners) (name.drop 2) h,
        (name, h) :: node.eventHandlers.filter (fun p => p.1 != name),
        node.attrs.filter (fun a => a.1 != name)⟩ := rfl

/-- After adding the fresh handler to a listener list clean of the
event's listeners, the invariant holds. -/
theorem eventInvAfterCommit (name : String) (h : Nat)
    (ls1 handlers0 : List (String × Nat)) (attrs0 : List (String × String))
    (hnd : ls1.Nodup) (hno : ∀ h' : Nat, (name.drop 2, h') ∉ ls1) :
    eventInv name ⟨addEventListener ls1 (name.drop 2) h,
      (name, h) :: handlers0.filter (fun p => p.1 != name), attrs0⟩ := by
  constructor
  · show (addEventListener ls1 (name.drop 2) h).Nodup
    rw [addEventListener]
    split
    · exact hnd
    · refine List.Nodup.append hnd (List.nodup_singleton _) ?_
      intro a ha hb
      simp only [List.mem_singleton] at hb
      subst hb
      exact hno h ha
  · intro h' hmem
    have hfind : (((name, h) :: handlers0.filter
        (fun p => p.1 != name)).find? (fun p => p.1 == name)) =
        some (name, h) := by
      rw [List.find?_cons]
      simp
    show ((((name, h) :: handlers0.filter
        (fun p => p.1 != name)).find? (fun p => p.1 == name)).map (·.2)) =
      some h'
    rw [hfind]
    have hmem' : (name.drop 2, h') ∈ addEventListener ls1 (name.drop 2) h :=
      hmem
    rw [addEventListener] at hmem'
    have heq : h' = h := by
      split at hmem'
      · exact absurd hmem' (hno h')
      · rcases List.mem_append.mp hmem' with hin | hone
        · exact absurd hin (hno h')
        · simp only [List.mem_singleton] at hone
          exact congrArg Prod.snd hone
    rw [heq]
    rfl

/-- One event commit preserves the event-commit invariant. -/
theorem commitEvent_preserves_inv (name : String) (h : Nat)
    (node : EventNode) (hinv : eventInv name node) :
    eventInv name (commitEvent name h node) := by
  obtain ⟨hnd, hstored⟩ := hinv
  cases hf : node.eventHandlers.find? (fun p => p.1 == name) with
  | none =>
    have he : commitEvent name h node =
        ⟨addEventListener node.listeners (name.drop 2) h,
         (name, h) :: node.eventHandlers.filter (fun p => p.1 != name),
         node.attrs.filter (fun a => a.1 != name)⟩ := by
      rw [commitEvent_eq, hf]
    rw [he]
    refine eventInvAfterCommit name h node.listeners node.eventHandlers
      node.attrs hnd ?_
    intro h' hm
    have hcontra := hstored h' hm
    rw [hf] at hcontra
    exact Option.noConfusion hcontra
  | some p =>
    have he : commitEvent name h node =
        ⟨addEventListener
           (removeEventListener node.listeners (name.drop 2) p.2)
           (name.drop 2) h,
         (name, h) :: node.eventHandlers.filter (fun q => q.1 != name),
         node.attrs.filter (fun a => a.1 != name)⟩ := by
      rw [commitEvent_eq, hf]
    rw [he]
    refine eventInvAfterCommit name h
      (removeEventListener node.listeners (name.drop 2) p.2)
      node.eventHandlers node.attrs (hnd.erase _) ?_
    intro h' hm
    rw [removeEventListener] at hm
    have hmem' := hnd.mem_erase_iff.mp hm
    have hsome := hstored h' hmem'.2
    rw [hf] at hsome
    have hp2 : p.2 = h' := Option.some.inj hsome
    exact hmem'.1 (by rw [hp2])

/-- Filtering out a key leaves nothing for a finder of that key. -/
theorem findFilteredNone {α : Type} (l : List (String × α)) (name : String) :
    (l.filter (fun a => a.1 != name)).find? (fun a => a.1 == name) = none := by
  rw [List.find?_eq_none]
  intro x hx
  have hne := (List.mem_filter.mp hx).2
  simpa using hne

/-- A duplicate-free list whose elements are pairwise equal has at most
one element. -/
theorem lengthLeOneOfNodupAllEq {α : Type} (l : List α) (hnd : l.Nodup)
    (h : ∀ a ∈ l, ∀ b ∈ l, a = b) : l.length ≤ 1 := by
  match l with
  | [] => simp
  | [a] => simp
  | a :: b :: t =>
    have hab : a = b := h a (by simp) b (by simp)
    have : a ∉ b :: t := (List.nodup_cons.mp hnd).1
    exact absurd (by rw [hab]; simp) this

/-- Under the event-commit invariant a node carries at most one listener
for the attribute's event type. -/
theorem listenerCount_le_one_of_inv (name : String) (node : EventNode)
    (hinv : eventInv name node) : listenerCount node (name.drop 2) ≤ 1 := by
  obtain ⟨hnd, hstored⟩ := hinv
  apply lengthLeOneOfNodupAllEq
  · exact hnd.filter _
  · intro a ha b hb
    obtain ⟨haMem, haEv⟩ := List.mem_filter.mp ha
    obtain ⟨hbMem, hbEv⟩ := List.mem_filter.mp hb
    have haEv' : a.1 = name.drop 2 := by simpa using haEv
    have hbEv' : b.1 = name.drop 2 := by simpa using hbEv
    have ha2 := hstored a.2 (by rw [← haEv']; exact haMem)
    have hb2 := hstored b.2 (by rw [← hbEv']; exact hbMem)
    have : a.2 = b.2 := by
      rw [ha2] at hb2
      exact Option.some.inj hb2
    calc a = (a.1, a.2) := rfl
    _ = (b.1, b.2) := by rw [haEv', hbEv', this]
    _ = b := rfl

/-- Folding a sequence of event commits preserves the invariant. -/
theorem foldlCommitEventInv (name : String) (handlers : List Nat) :
    ∀ node : EventNode, eventInv name node →
      eventInv name (handlers.foldl (fun n h => commitEvent name h n) node) := by
  induction handlers with
  | nil => intro node hinv; exact hinv
  | cons a t ih =>
    intro node hinv
    exact ih _ (commitEvent_preserves_inv name a node hinv)

/-- Claim C10.  After any sequence of event commits for the same event
attribute name on the same node — starting from a freshly rendered node,
which carries no listeners — the node carries at most one listener for
that attribute's event type; and each single commit stores the new bound
handler in the node's `eventHandlers` record under the attribute name and
removes the placeholder attribute from the node. -/
theorem commitEvent_at_most_one_listener (name : String)
    (node : EventNode) (handlers : List Nat)
    (hstart : node.listeners = []) :
    listenerCount
      (handlers.foldl (fun n h => commitEvent name h n) node)
      (name.drop 2) ≤ 1 ∧
    ∀ (h : Nat) (n : EventNode),
      (commitEvent name h n).attrs.find? (fun a => a.1 == name) = none ∧
      ((commitEvent name h n).eventHandlers.find?
        (fun p => p.1 == name)).map (·.2) = some h := by
  constructor
  · apply listenerCount_le_one_of_inv
    apply foldlCommitEventInv
    exact ⟨by rw [hstart]; exact List.nodup_nil,
      fun h hmem => absurd hmem (by rw [hstart]; exact List.not_mem_nil _)⟩
  · intro h n
    constructor
    · show (n.attrs.filter (fun a => a.1 != name)).find?
        (fun a => a.1 == name) = none
      exact findFilteredNone n.attrs name
    · show ((((name, h) :: n.eventHandlers.filter
          (fun p => p.1 != name)).find? (fun p => p.1 == name)).map (·.2)) =
        some h
      simp [List.find?_cons]

/-- Witness for C10: two successive commits for `onclick` on a freshly
rendered node, by instantiating the theorem. -/
theorem commitEvent_at_most_one_listener_witness :
    listenerCount
      ([3, 7].foldl (fun n h => commitEvent "onclick" h n)
        ⟨[], [], [("onclick", nodeMarker)]⟩)
      ("onclick".drop 2) ≤ 1 ∧
    (commitEvent "onclick" 3
      ⟨[], [], [("onclick", nodeMarker)]⟩).attrs.find?
        (fun a => a.1 == "onclick") = none ∧
    ((commitEvent "onclick" 3
      ⟨[], [], [("onclick", nodeMarker)]⟩).eventHandlers.find?
        (fun p => p.1 == "onclick")).map (·.2) = some 3 :=
  ⟨(commitEvent_at_most_one_listener "onclick"
      ⟨[], [], [("onclick", nodeMarker)]⟩ [3, 7] rfl).1,
   ((commitEvent_at_most_one_listener "onclick"
      ⟨[], [], [("onclick", nodeMarker)]⟩ [3, 7] rfl).2 3
      ⟨[], [], [("onclick", nodeMarker)]⟩).1,
   ((commitEvent_at_most_one_listener "onclick"
      ⟨[], [], [("onclick", nodeMarker)]⟩ [3, 7] rfl).2 3
      ⟨[], [], [("onclick", nodeMarker)]⟩).2⟩

end Mosaic
